import Mathlib

/-!
Verification of the texture color-segmentation and highlighting engine of
SocketGenV2 (`akro-socket-web`).

The definitions below are a shallow embedding of the TypeScript sources:
  * `apps/web/src/workers/colorHighlight.worker.ts` (rgbToHsv, colorMatches,
    analyzeTexture, the worker message handler),
  * `apps/web/src/workers/imagePreprocessing.worker.ts` (erosion, dilation,
    morphologicalOpening),
  * `apps/web/src/utils/highlightShader.ts` (updateHighlightMask,
    clearHighlights, updateHighlightProperties),
  * `apps/web/src/utils/colorHighlight.ts` (ColorHighlightController:
    handleWorkerResponse, highlightColor, applyHighlightMask).

JavaScript numbers are modelled by `ℚ`; pixel buffers are row-major RGBA byte
lists modelled by `List ℕ`.
-/

/-- An HSV triple `{h, s, v}`, used both for target colors and for tolerance
windows (worker request fields `targetColor` and `tolerance`). -/
structure HSVColor where
  h : ℚ
  s : ℚ
  v : ℚ
deriving DecidableEq

/-- The `ImageData` payload of a worker request: width, height, and the
row-major RGBA byte quadruplets (`data[(y*width+x)*4 + c]`). -/
structure ImageData where
  width : Nat
  height : Nat
  data : List Nat
deriving DecidableEq

/-- Truncation toward zero, as used by the JavaScript `%` operator. -/
def jsTrunc (q : ℚ) : ℤ :=
  if 0 ≤ q then ⌊q⌋ else ⌈q⌉

/-- The JavaScript remainder operator `a % b` on numbers:
`a - b * trunc(a / b)`. -/
def jsMod (a b : ℚ) : ℚ :=
  a - b * (jsTrunc (a / b) : ℚ)

/-- `rgbToHsv` from `colorHighlight.worker.ts`: normalize the byte channels to
`[0,1]`, take max/min/delta, compute hue by the six-case piecewise formula
(JavaScript `%` on the red branch), saturation `delta/max` (0 when `max = 0`),
value `max`; returns `(h*360, s*100, v*100)`. -/
def rgbToHsv (r0 g0 b0 : ℚ) : ℚ × ℚ × ℚ :=
  let r := r0 / 255
  let g := g0 / 255
  let b := b0 / 255
  let mx := max r (max g b)
  let mn := min r (min g b)
  let delta := mx - mn
  let s := if mx = 0 then 0 else delta / mx
  let v := mx
  let h :=
    if delta ≠ 0 then
      (if mx = r then jsMod ((g - b) / delta) 6
       else if mx = g then (b - r) / delta + 2
       else (r - g) / delta + 4) / 6
    else 0
  let h' := if h < 0 then h + 1 else h
  (h' * 360, s * 100, v * 100)

/-- The hue distance computed inside `colorMatches`
(`colorHighlight.worker.ts` lines 79-82): `hDiff = |h1 - h2|`, replaced by
`360 - hDiff` when it exceeds 180. -/
def hueDist (h1 h2 : ℚ) : ℚ :=
  if 180 < |h1 - h2| then 360 - |h1 - h2| else |h1 - h2|

/-- `colorMatches` from `colorHighlight.worker.ts`: the two HSV triples match
iff the (wraparound) hue distance and the saturation and value deltas are all
within the tolerance window. -/
def colorMatches (hsv1 hsv2 : ℚ × ℚ × ℚ) (tolerance : HSVColor) : Prop :=
  hueDist hsv1.1 hsv2.1 ≤ tolerance.h ∧
  |hsv1.2.1 - hsv2.2.1| ≤ tolerance.s ∧
  |hsv1.2.2 - hsv2.2.2| ≤ tolerance.v

instance (hsv1 hsv2 : ℚ × ℚ × ℚ) (tolerance : HSVColor) :
    Decidable (colorMatches hsv1 hsv2 tolerance) := by
  unfold colorMatches
  exact inferInstance

/-- Byte read from an `ImageData` buffer (reads past the end give 0, matching
an out-of-range `Uint8ClampedArray` read being `undefined`-free in the loops,
which only touch indices below `4*width*height`). -/
def byteAt (img : ImageData) (i : Nat) : Nat :=
  img.data.getD i 0

/-- The per-pixel test of the `analyzeTexture` loop body for the pixel with
row-major index `i = y*width + x`: the pixel is counted iff it is not skipped
as transparent (`a < 128` skips) and its HSV value matches the target within
tolerance. -/
def pixelMatches (img : ImageData) (targetColor tolerance : HSVColor) (i : Nat) : Prop :=
  128 ≤ byteAt img (4 * i + 3) ∧
  colorMatches
    (rgbToHsv (byteAt img (4 * i)) (byteAt img (4 * i + 1)) (byteAt img (4 * i + 2)))
    (targetColor.h, targetColor.s, targetColor.v) tolerance

instance (img : ImageData) (targetColor tolerance : HSVColor) (i : Nat) :
    Decidable (pixelMatches img targetColor tolerance i) := by
  unfold pixelMatches
  exact inferInstance

/-- The aggregate statistics returned by `analyzeTexture`: matching pixel
count, coverage ratio, and UV-normalized bounding box. -/
structure HighlightStats where
  matchingPixels : Nat
  coverage : ℚ
  boundingBox : (ℚ × ℚ) × (ℚ × ℚ)
deriving DecidableEq

/-- `analyzeTexture` from `colorHighlight.worker.ts`: one pass over all
`width*height` pixels; matching pixels get mask value 255 (others 0) and are
counted; coverage is `matchingPixels / (width*height)`; the bounding box is the
min/max of the matched x and y coordinates normalized by width/height, or the
degenerate `(0,0)-(0,0)` box when nothing matched. -/
def analyzeTexture (img : ImageData) (targetColor tolerance : HSVColor) :
    List Nat × HighlightStats :=
  let idx := List.range (img.width * img.height)
  let mask := idx.map (fun i => if pixelMatches img targetColor tolerance i then 255 else 0)
  let matched := idx.filter (fun i => decide (pixelMatches img targetColor tolerance i))
  let matchingPixels := matched.length
  let coverage : ℚ := (matchingPixels : ℚ) / ((img.width * img.height : Nat) : ℚ)
  let boundingBox :=
    if 0 < matchingPixels then
      let minX := (matched.map (fun i => i % img.width)).foldl min img.width
      let minY := (matched.map (fun i => i / img.width)).foldl min img.height
      let maxX := (matched.map (fun i => i % img.width)).foldl max 0
      let maxY := (matched.map (fun i => i / img.width)).foldl max 0
      (((minX : ℚ) / (img.width : ℚ), (minY : ℚ) / (img.height : ℚ)),
       ((maxX : ℚ) / (img.width : ℚ), (maxY : ℚ) / (img.height : ℚ)))
    else ((0, 0), (0, 0))
  (mask, ⟨matchingPixels, coverage, boundingBox⟩)

/-- C1: for any two hue values the circular hue distance used by the
color-match predicate equals `min(|h1-h2|, 360-|h1-h2|)`; in particular (second
conjunct) hues 350 and 10 are at distance 20, not 340. Proved for all rational
hues, hence in particular for hues in `[0, 360)`. -/
theorem hueDist_eq_circular_min :
    (∀ h1 h2 : ℚ, hueDist h1 h2 = min |h1 - h2| (360 - |h1 - h2|)) ∧
    hueDist 350 10 = 20 := by
  constructor
  · intro h1 h2
    unfold hueDist
    have hnn : (0:ℚ) ≤ |h1 - h2| := abs_nonneg _
    split
    · next hgt =>
      exact (min_eq_right (by linarith)).symm
    · next hle =>
      push_neg at hle
      exact (min_eq_left (by linarith)).symm
  · norm_num [hueDist, abs_of_nonneg]

/-- The `type` field of a worker request (`'analyze' | 'highlight' | 'clear'`). -/
inductive RequestType where
  | analyze
  | highlight
  | clear
deriving DecidableEq

/-- A `ColorHighlightRequest` message: the `type` tag plus the optional
`imageData`, `targetColor` and `tolerance` fields. -/
structure ColorHighlightRequest where
  rtype : RequestType
  imageData : Option ImageData
  targetColor : Option HSVColor
  tolerance : Option HSVColor
deriving DecidableEq

/-- A `ColorHighlightResponse` message: `analysis-complete` with mask and
stats, `highlight-ready` with a (possibly empty) mask, or a typed `error`. -/
inductive ColorHighlightResponse where
  | analysisComplete (highlightMask : List Nat) (matchingPixels : Nat)
      (coverage : ℚ) (boundingBox : (ℚ × ℚ) × (ℚ × ℚ))
  | highlightReady (highlightMask : List Nat)
  | error (msg : String)
deriving DecidableEq

/-- The `try`-block of the worker's `self.onmessage` handler in
`colorHighlight.worker.ts`: `analyze` with all parameters present posts one
`analysis-complete` response built from `analyzeTexture`; `analyze` with a
missing parameter throws, as does the unhandled `highlight` type; `clear`
posts one `highlight-ready` response with an empty mask. The returned list
collects the `postMessage` calls; a thrown `Error` is the `Except.error`
message. -/
def onmessageTry (req : ColorHighlightRequest) :
    Except String (List ColorHighlightResponse) :=
  match req.rtype with
  | RequestType.analyze =>
    match req.imageData, req.targetColor, req.tolerance with
    | some imageData, some targetColor, some tolerance =>
      let result := analyzeTexture imageData targetColor tolerance
      Except.ok [ColorHighlightResponse.analysisComplete result.1
        result.2.matchingPixels result.2.coverage result.2.boundingBox]
    | _, _, _ => Except.error "Missing required parameters for analysis"
  | RequestType.clear =>
      Except.ok [ColorHighlightResponse.highlightReady []]
  | RequestType.highlight => Except.error "Unknown request type: highlight"

/-- The worker's `self.onmessage` handler: the `try`-block above wrapped in the
`catch` that turns any thrown error into a single posted `error` response. -/
def onmessage (req : ColorHighlightRequest) : List ColorHighlightResponse :=
  match onmessageTry req with
  | Except.ok responses => responses
  | Except.error e => [ColorHighlightResponse.error e]

/-- Clamped coordinate access used by `erosion` and `dilation` in
`imagePreprocessing.worker.ts`: `Math.max(0, Math.min(n - 1, i))`. -/
def clampIdx (n : Nat) (i : ℤ) : Nat :=
  (max 0 (min ((n : ℤ) - 1) i)).toNat

/-- The kernel offsets `(dy, dx)` enumerated by the nested
`for (dy = -radius; dy <= radius; dy++) for (dx = -radius; dx <= radius; dx++)`
loops. -/
def offsets (radius : Nat) : List (ℤ × ℤ) :=
  (List.range (2 * radius + 1)).flatMap (fun a =>
    (List.range (2 * radius + 1)).map (fun b =>
      ((a : ℤ) - (radius : ℤ), (b : ℤ) - (radius : ℤ))))

/-- Channel read `data[(y*width + x)*4 + c]` of an RGBA buffer. -/
def chanAt (img : ImageData) (x y c : Nat) : Nat :=
  img.data.getD ((y * img.width + x) * 4 + c) 0

/-- The per-channel minimum over the clamped kernel neighborhood computed by
the `erosion` loop body (accumulator starts at 255). -/
def erodePixel (img : ImageData) (x y radius c : Nat) : Nat :=
  ((offsets radius).map (fun d =>
    chanAt img (clampIdx img.width ((x : ℤ) + d.2)) (clampIdx img.height ((y : ℤ) + d.1)) c)).foldl
    min 255

/-- The per-channel maximum over the clamped kernel neighborhood computed by
the `dilation` loop body (accumulator starts at 0). -/
def dilatePixel (img : ImageData) (x y radius c : Nat) : Nat :=
  ((offsets radius).map (fun d =>
    chanAt img (clampIdx img.width ((x : ℤ) + d.2)) (clampIdx img.height ((y : ℤ) + d.1)) c)).foldl
    max 0

/-- `erosion` from `imagePreprocessing.worker.ts`: per-channel min over a
square kernel of radius `kernelSize / 2`, clamped at image borders; the alpha
channel passes through unchanged. -/
def erosion (img : ImageData) (kernelSize : Nat) : ImageData :=
  let radius := kernelSize / 2
  { width := img.width
    height := img.height
    data := (List.range (img.width * img.height)).flatMap (fun i =>
      [erodePixel img (i % img.width) (i / img.width) radius 0,
       erodePixel img (i % img.width) (i / img.width) radius 1,
       erodePixel img (i % img.width) (i / img.width) radius 2,
       chanAt img (i % img.width) (i / img.width) 3]) }

/-- `dilation` from `imagePreprocessing.worker.ts`: per-channel max over a
square kernel of radius `kernelSize / 2`, clamped at image borders; the alpha
channel passes through unchanged. -/
def dilation (img : ImageData) (kernelSize : Nat) : ImageData :=
  let radius := kernelSize / 2
  { width := img.width
    height := img.height
    data := (List.range (img.width * img.height)).flatMap (fun i =>
      [dilatePixel img (i % img.width) (i / img.width) radius 0,
       dilatePixel img (i % img.width) (i / img.width) radius 1,
       dilatePixel img (i % img.width) (i / img.width) radius 2,
       chanAt img (i % img.width) (i / img.width) 3]) }

/-- `morphologicalOpening` from `imagePreprocessing.worker.ts`: erosion
followed by dilation. -/
def morphologicalOpening (img : ImageData) (kernelSize : Nat) : ImageData :=
  dilation (erosion img kernelSize) kernelSize

/-- Modelled from the spec: the spec states that `morphologicalOpening` is
"used to clean a match mask before it is reported"; no such call exists in the
color worker source, so the single-channel opening of a `width × height` match
mask is modelled here by restricting the source's `erosion`/`dilation`
(per-channel clamped min/max) to the mask's one channel. Erosion half. -/
def erosionMask (mask : List Nat) (width height kernelSize : Nat) : List Nat :=
  let radius := kernelSize / 2
  (List.range (width * height)).map (fun i =>
    ((offsets radius).map (fun d =>
      mask.getD ((clampIdx height ((i / width : Nat) + d.1)) * width +
        clampIdx width ((i % width : Nat) + d.2)) 0)).foldl min 255)

/-- Modelled from the spec: dilation half of the single-channel opening of a
match mask (see `erosionMask`). -/
def dilationMask (mask : List Nat) (width height kernelSize : Nat) : List Nat :=
  let radius := kernelSize / 2
  (List.range (width * height)).map (fun i =>
    ((offsets radius).map (fun d =>
      mask.getD ((clampIdx height ((i / width : Nat) + d.1)) * width +
        clampIdx width ((i % width : Nat) + d.2)) 0)).foldl max 0)

/-- Modelled from the spec: `morphologicalOpening(buffer, kernelSize) =
dilation(erosion(buffer, kernelSize), kernelSize)` applied to a single-channel
match mask. -/
def morphologicalOpeningMask (mask : List Nat) (width height kernelSize : Nat) : List Nat :=
  dilationMask (erosionMask mask width height kernelSize) width height kernelSize

/-- The observable uniform state of one highlight `ShaderMaterial` built by
`createHighlightMaterial` in `highlightShader.ts`: the current mask texture
(data and dimensions), the `enableHighlight` flag, and the highlight color /
`highlightOpacity` / `highlightIntensity` uniforms. -/
structure ShaderMaterial where
  maskData : List Nat
  maskWidth : Nat
  maskHeight : Nat
  enableHighlight : Bool
  highlightColor : Nat
  highlightOpacity : ℚ
  highlightIntensity : ℚ
deriving DecidableEq

/-- `updateHighlightMask` from `highlightShader.ts`: uploads a freshly built
mask texture of the given dimensions and sets `enableHighlight := true`. -/
def updateHighlightMask (material : ShaderMaterial) (maskData : List Nat)
    (width height : Nat) : ShaderMaterial :=
  { material with
      maskData := maskData
      maskWidth := width
      maskHeight := height
      enableHighlight := true }

/-- `clearHighlights` from `highlightShader.ts`: sets
`enableHighlight := false` without discarding the mask. -/
def clearHighlights (material : ShaderMaterial) : ShaderMaterial :=
  { material with enableHighlight := false }

/-- `updateHighlightProperties` from `highlightShader.ts`: overwrites
whichever of the color/opacity/intensity uniforms are given. -/
def updateHighlightProperties (material : ShaderMaterial)
    (color : Option Nat) (opacity intensity : Option ℚ) : ShaderMaterial :=
  let material := match color with
    | some c => { material with highlightColor := c }
    | none => material
  let material := match opacity with
    | some o => { material with highlightOpacity := o }
    | none => material
  match intensity with
  | some i => { material with highlightIntensity := i }
  | none => material

/-- The controller's `HighlightConfig` (`colorHighlight.ts`): highlight color
(modelled as an abstract numeric value), opacity, intensity, and the tolerance
window sent with every analyze request. -/
structure HighlightConfig where
  color : Nat
  opacity : ℚ
  intensity : ℚ
  tolerance : HSVColor
deriving DecidableEq

/-- The mutable state of a `ColorHighlightController`: whether the worker was
constructed, the `isProcessing` guard, the list of bound highlight materials
(the values of the `highlightMaterials` map), and the current config. -/
structure ControllerState where
  hasWorker : Bool
  isProcessing : Bool
  highlightMaterials : List ShaderMaterial
  currentConfig : HighlightConfig
deriving DecidableEq

/-- `ColorHighlightController.applyHighlightMask`: computes
`size = sqrt(maskData.length)` and, when `size` is not an integer (the length
is not a perfect square), returns with no material touched; otherwise pushes
the mask (as a `size × size` texture) and the current color/opacity/intensity
into every bound highlight material. -/
def applyHighlightMask (st : ControllerState) (maskData : List Nat) : ControllerState :=
  let size := Nat.sqrt maskData.length
  if size * size ≠ maskData.length then st
  else
    { st with highlightMaterials := st.highlightMaterials.map (fun material =>
        updateHighlightProperties (updateHighlightMask material maskData size size)
          (some st.currentConfig.color) (some st.currentConfig.opacity)
          (some st.currentConfig.intensity)) }

/-- `ColorHighlightController.handleWorkerResponse`: clears `isProcessing`,
then on `analysis-complete` applies the returned mask and emits the stats
through the callback (`some (some stats)`), on `error` emits a null stats
callback (`some none`), and on any other response type does nothing further
(`none` = no callback invoked). -/
def handleWorkerResponse (st : ControllerState) (response : ColorHighlightResponse) :
    ControllerState × Option (Option HighlightStats) :=
  let st := { st with isProcessing := false }
  match response with
  | ColorHighlightResponse.analysisComplete mask matchingPixels coverage boundingBox =>
      (applyHighlightMask st mask, some (some ⟨matchingPixels, coverage, boundingBox⟩))
  | ColorHighlightResponse.error _ => (st, some none)
  | ColorHighlightResponse.highlightReady _ => (st, none)

/-- `ColorHighlightController.highlightColor`: returns the new controller
state, the request posted to the worker (if any), and the stats callback
emitted synchronously with this call (if any). The guard
`if (this.isProcessing || !this.worker) return` makes the call a no-op while a
request is outstanding; with no bound material the `isProcessing` flag is set
and immediately cleared; otherwise the asynchronous texture extraction
(modelled by the `extracted` argument) either posts one analyze request
carrying the current tolerance, or on extraction failure clears the flag and
emits a null stats callback. -/
def highlightColor (st : ControllerState) (targetColor : HSVColor)
    (extracted : Option ImageData) :
    ControllerState × Option ColorHighlightRequest × Option (Option HighlightStats) :=
  if st.isProcessing || !st.hasWorker then (st, none, none)
  else
    match st.highlightMaterials with
    | [] => (st, none, none)
    | _ :: _ =>
      match extracted with
      | some imageData =>
          ({ st with isProcessing := true },
           some ⟨RequestType.analyze, some imageData, some targetColor,
             some st.currentConfig.tolerance⟩,
           none)
      | none => (st, none, some none)

/-- C6: while a request is outstanding (`isProcessing = true`), calling
`highlightColor` is a no-op: the controller state (and hence every bound
shader) is returned unchanged, no request is posted to the worker, and no
stats callback is emitted — so at most one request is ever in flight. -/
theorem highlightColor_noop_while_processing (st : ControllerState)
    (targetColor : HSVColor) (extracted : Option ImageData)
    (h : st.isProcessing = true) :
    highlightColor st targetColor extracted = (st, none, none) := by
  unfold highlightColor
  rw [h]
  simp

/-- Witness for C6: a concrete busy controller state on which `highlightColor`
changes nothing and dispatches nothing. -/
theorem highlightColor_noop_while_processing_witness :
    (ControllerState.mk true true
        [ShaderMaterial.mk [255] 1 1 true 0 1 1]
        (HighlightConfig.mk 0 1 2 (HSVColor.mk 15 20 30))).isProcessing = true ∧
    highlightColor
        (ControllerState.mk true true
          [ShaderMaterial.mk [255] 1 1 true 0 1 1]
          (HighlightConfig.mk 0 1 2 (HSVColor.mk 15 20 30)))
        (HSVColor.mk 0 100 100) none =
      ((ControllerState.mk true true
          [ShaderMaterial.mk [255] 1 1 true 0 1 1]
          (HighlightConfig.mk 0 1 2 (HSVColor.mk 15 20 30))), none, none) :=
  ⟨rfl, highlightColor_noop_while_processing _ _ _ rfl⟩

/-- C8: when the controller receives an `analysis-complete` response whose
mask length is not a perfect square, applying the mask is skipped entirely:
the list of bound highlight materials (mask, dimensions, enable flag, and all
uniforms) is exactly what it was before the response arrived. -/
theorem nonSquare_mask_skips_material_update (st : ControllerState)
    (mask : List Nat) (matchingPixels : Nat) (coverage : ℚ)
    (boundingBox : (ℚ × ℚ) × (ℚ × ℚ))
    (h : ¬ ∃ s ≤ mask.length, s * s = mask.length) :
    (handleWorkerResponse st
        (ColorHighlightResponse.analysisComplete mask matchingPixels coverage
          boundingBox)).1.highlightMaterials = st.highlightMaterials := by
  have hs : Nat.sqrt mask.length * Nat.sqrt mask.length ≠ mask.length :=
    fun he => h ⟨Nat.sqrt mask.length, Nat.sqrt_le_self _, he⟩
  simp [handleWorkerResponse, applyHighlightMask, hs]

/-- Witness for C8: a mask of length 2 (not a perfect square) leaves a
concrete controller's materials untouched. -/
theorem nonSquare_mask_skips_material_update_witness :
    (¬ ∃ s ≤ ([255, 255] : List Nat).length, s * s = ([255, 255] : List Nat).length) ∧
    (handleWorkerResponse
        (ControllerState.mk true true
          [ShaderMaterial.mk [0] 1 1 false 0 1 1]
          (HighlightConfig.mk 0 1 2 (HSVColor.mk 15 20 30)))
        (ColorHighlightResponse.analysisComplete [255, 255] 2 1
          ((0, 0), (0, 0)))).1.highlightMaterials =
      [ShaderMaterial.mk [0] 1 1 false 0 1 1] :=
  ⟨by decide, nonSquare_mask_skips_material_update _ _ _ _ _ (by decide)⟩

/-- C3 (amended): when the controller receives an error response it clears the
`isProcessing` flag and emits a null stats callback, and it leaves every bound
shader untouched — in particular it does NOT clear the highlight (no
`enableHighlight` flag is reset). -/
theorem error_response_emits_null_stats_only (st : ControllerState) (msg : String) :
    handleWorkerResponse st (ColorHighlightResponse.error msg) =
      ({ st with isProcessing := false }, some none) := rfl

/-- Counterexample for C3: a concrete controller with one bound shader whose
highlight is enabled; after an error response the null stats callback is
emitted but the shader's `enableHighlight` flag is still `true`, so the
highlight was not cleared as the claim states. -/
theorem error_response_does_not_clear_highlight_cx :
    (handleWorkerResponse
        (ControllerState.mk true true
          [ShaderMaterial.mk [255] 1 1 true 0 1 1]
          (HighlightConfig.mk 0 1 2 (HSVColor.mk 15 20 30)))
        (ColorHighlightResponse.error "analysis failed")).2 = some none ∧
    ((handleWorkerResponse
        (ControllerState.mk true true
          [ShaderMaterial.mk [255] 1 1 true 0 1 1]
          (HighlightConfig.mk 0 1 2 (HSVColor.mk 15 20 30)))
        (ColorHighlightResponse.error "analysis failed")).1.highlightMaterials.map
      (fun material => material.enableHighlight)) = [true] ∧
    ([true] : List Bool) ≠ [false] := ⟨rfl, rfl, by decide⟩

/-- C7: the worker message handler posts exactly one response for every
incoming request, and never escapes an exception: a well-formed `analyze`
request yields the single `analysis-complete` response built from
`analyzeTexture`, an `analyze` request with a missing parameter and the
unhandled `highlight` type yield the single typed error response from the
`catch` block, and `clear` yields the single `highlight-ready` response. -/
theorem onmessage_exactly_one_response (req : ColorHighlightRequest) :
    (onmessage req).length = 1 ∧
    (∀ imageData targetColor tolerance,
      req = ⟨RequestType.analyze, some imageData, some targetColor, some tolerance⟩ →
      onmessage req = [ColorHighlightResponse.analysisComplete
        (analyzeTexture imageData targetColor tolerance).1
        (analyzeTexture imageData targetColor tolerance).2.matchingPixels
        (analyzeTexture imageData targetColor tolerance).2.coverage
        (analyzeTexture imageData targetColor tolerance).2.boundingBox]) ∧
    (req.rtype = RequestType.analyze →
      (req.imageData = none ∨ req.targetColor = none ∨ req.tolerance = none) →
      onmessage req =
        [ColorHighlightResponse.error "Missing required parameters for analysis"]) ∧
    (req.rtype = RequestType.highlight →
      onmessage req = [ColorHighlightResponse.error "Unknown request type: highlight"]) ∧
    (req.rtype = RequestType.clear →
      onmessage req = [ColorHighlightResponse.highlightReady []]) := by
  rcases req with ⟨rt, i, t, l⟩
  cases rt <;> cases i <;> cases t <;> cases l <;>
    simp [onmessage, onmessageTry]

/-- Witness for C7: a malformed `analyze` request (all parameters missing)
yields the single error response, and a `clear` request yields exactly one
response. -/
theorem onmessage_exactly_one_response_witness :
    onmessage ⟨RequestType.analyze, none, none, none⟩ =
      [ColorHighlightResponse.error "Missing required parameters for analysis"] ∧
    (onmessage ⟨RequestType.clear, none, none, none⟩).length = 1 :=
  ⟨(onmessage_exactly_one_response _).2.2.1 rfl (Or.inl rfl),
   (onmessage_exactly_one_response _).1⟩

/-- C2 (amended): the mask returned by the worker for a well-formed analyze
request is the raw per-pixel match mask from `analyzeTexture`, with no
morphological opening (or any other cleaning) applied before it is reported. -/
theorem worker_reports_raw_mask (imageData : ImageData)
    (targetColor tolerance : HSVColor) :
    onmessage ⟨RequestType.analyze, some imageData, some targetColor, some tolerance⟩ =
      [ColorHighlightResponse.analysisComplete
        (analyzeTexture imageData targetColor tolerance).1
        (analyzeTexture imageData targetColor tolerance).2.matchingPixels
        (analyzeTexture imageData targetColor tolerance).2.coverage
        (analyzeTexture imageData targetColor tolerance).2.boundingBox] := rfl

/-- The mask carried by a worker response (empty for an error response). -/
def respMask : ColorHighlightResponse → List Nat
  | ColorHighlightResponse.analysisComplete m _ _ _ => m
  | ColorHighlightResponse.highlightReady m => m
  | ColorHighlightResponse.error _ => []

/-- Counterexample for C2: on the concrete 2×1 image with one matching white
pixel and one non-matching black pixel, the worker's response carries the raw
mask `[255, 0]`, while the morphological opening (kernel 3) of that raw mask
is `[0, 0]` — so the reported mask is not the opened one. -/
theorem worker_mask_not_opened_cx :
    (onmessage ⟨RequestType.analyze,
        some ⟨2, 1, [255, 255, 255, 255, 0, 0, 0, 255]⟩,
        some ⟨0, 0, 100⟩, some ⟨0, 0, 0⟩⟩).map respMask = [[255, 0]] ∧
    morphologicalOpeningMask [255, 0] 2 1 3 = [0, 0] ∧
    ([255, 0] : List Nat) ≠ [0, 0] := by
  refine ⟨?_, by decide, by decide⟩
  have hp0 : pixelMatches ⟨2, 1, [255, 255, 255, 255, 0, 0, 0, 255]⟩ ⟨0, 0, 100⟩ ⟨0, 0, 0⟩ 0 := by
    constructor
    · decide
    · have h1 : byteAt ⟨2, 1, [255, 255, 255, 255, 0, 0, 0, 255]⟩ (4 * 0) = 255 := rfl
      have h2 : byteAt ⟨2, 1, [255, 255, 255, 255, 0, 0, 0, 255]⟩ (4 * 0 + 1) = 255 := rfl
      have h3 : byteAt ⟨2, 1, [255, 255, 255, 255, 0, 0, 0, 255]⟩ (4 * 0 + 2) = 255 := rfl
      rw [h1, h2, h3]
      norm_num [colorMatches, rgbToHsv, hueDist]
  have hp1 : ¬ pixelMatches ⟨2, 1, [255, 255, 255, 255, 0, 0, 0, 255]⟩ ⟨0, 0, 100⟩ ⟨0, 0, 0⟩ 1 := by
    rintro ⟨-, hcm⟩
    have h1 : byteAt ⟨2, 1, [255, 255, 255, 255, 0, 0, 0, 255]⟩ (4 * 1) = 0 := rfl
    have h2 : byteAt ⟨2, 1, [255, 255, 255, 255, 0, 0, 0, 255]⟩ (4 * 1 + 1) = 0 := rfl
    have h3 : byteAt ⟨2, 1, [255, 255, 255, 255, 0, 0, 0, 255]⟩ (4 * 1 + 2) = 0 := rfl
    rw [h1, h2, h3] at hcm
    norm_num [colorMatches, rgbToHsv, hueDist] at hcm
  simp [onmessage, onmessageTry, analyzeTexture, respMask,
    show (2 * 1 : Nat) = 2 from rfl, List.range_succ, hp0, hp1]

/-- Monotonicity of `colorMatches` in the tolerance window: widening each
component preserves a match. -/
theorem colorMatches_mono (hsv1 hsv2 : ℚ × ℚ × ℚ) (t1 t2 : HSVColor)
    (hh : t1.h ≤ t2.h) (hs : t1.s ≤ t2.s) (hv : t1.v ≤ t2.v)
    (h : colorMatches hsv1 hsv2 t1) : colorMatches hsv1 hsv2 t2 :=
  ⟨h.1.trans hh, h.2.1.trans hs, h.2.2.trans hv⟩

/-- C4: for a fixed image and target color, widening the tolerance window
componentwise never decreases the `matchingPixels` count reported by
`analyzeTexture`. -/
theorem analyzeTexture_tolerance_mono (img : ImageData) (targetColor t1 t2 : HSVColor)
    (hh : t1.h ≤ t2.h) (hs : t1.s ≤ t2.s) (hv : t1.v ≤ t2.v) :
    (analyzeTexture img targetColor t1).2.matchingPixels ≤
      (analyzeTexture img targetColor t2).2.matchingPixels := by
  have key : ∀ l : List Nat,
      (l.filter (fun i => decide (pixelMatches img targetColor t1 i))).length ≤
      (l.filter (fun i => decide (pixelMatches img targetColor t2 i))).length := by
    intro l
    rw [← List.countP_eq_length_filter, ← List.countP_eq_length_filter]
    refine List.countP_mono_left (fun i _ hpi => ?_)
    have hm := of_decide_eq_true hpi
    exact decide_eq_true ⟨hm.1, colorMatches_mono _ _ _ _ hh hs hv hm.2⟩
  simpa [analyzeTexture] using key (List.range (img.width * img.height))

/-- Witness for C4: concrete tolerances `(10,20,30) ≤ (15,25,35)` and a
concrete 1×1 red image on which the count under the wider window is at least
the count under the narrower one. -/
theorem analyzeTexture_tolerance_mono_witness :
    ((10:ℚ) ≤ 15 ∧ (20:ℚ) ≤ 25 ∧ (30:ℚ) ≤ 35) ∧
    (analyzeTexture ⟨1, 1, [255, 0, 0, 255]⟩ ⟨0, 100, 100⟩ ⟨10, 20, 30⟩).2.matchingPixels ≤
      (analyzeTexture ⟨1, 1, [255, 0, 0, 255]⟩ ⟨0, 100, 100⟩ ⟨15, 25, 35⟩).2.matchingPixels :=
  ⟨⟨by decide, by decide, by decide⟩,
   analyzeTexture_tolerance_mono _ _ _ _ (by decide) (by decide) (by decide)⟩

/-- Helper: in a 0/255 mask built from a predicate, the number of 255 entries
equals the number of indices satisfying the predicate. -/
theorem mask_count_eq (l : List Nat) (p : Nat → Prop) [DecidablePred p] :
    (l.map (fun i => if p i then 255 else 0)).count 255 =
      (l.filter (fun i => decide (p i))).length := by
  induction l with
  | nil => rfl
  | cons a l ih =>
    by_cases hp : p a <;>
      simp [hp, List.count_cons, List.filter_cons, ih]

/-- C5: for every analysis result the reported coverage equals
`matchingPixels / (width * height)` exactly, and equivalently the number of
255 entries of the returned mask divided by `width * height`. -/
theorem analyzeTexture_coverage_eq (img : ImageData) (targetColor tolerance : HSVColor) :
    (analyzeTexture img targetColor tolerance).2.coverage =
      ((analyzeTexture img targetColor tolerance).2.matchingPixels : ℚ) /
        ((img.width * img.height : Nat) : ℚ) ∧
    (analyzeTexture img targetColor tolerance).2.coverage =
      (((analyzeTexture img targetColor tolerance).1.count 255 : Nat) : ℚ) /
        ((img.width * img.height : Nat) : ℚ) := by
  constructor
  · rfl
  · have hc := mask_count_eq (List.range (img.width * img.height))
      (pixelMatches img targetColor tolerance)
    simp only [analyzeTexture]
    rw [hc]

/-- C10: the mask produced by `analyzeTexture` is binary (every entry is 0 or
255), its length is `width * height`, and its number of 255 entries equals the
reported `matchingPixels`. -/
theorem analyzeTexture_mask_invariants (img : ImageData) (targetColor tolerance : HSVColor) :
    ((analyzeTexture img targetColor tolerance).1.all (fun v => v == 0 || v == 255)) = true ∧
    (analyzeTexture img targetColor tolerance).1.length = img.width * img.height ∧
    (analyzeTexture img targetColor tolerance).1.count 255 =
      (analyzeTexture img targetColor tolerance).2.matchingPixels := by
  refine ⟨?_, by simp [analyzeTexture], ?_⟩
  · simp only [analyzeTexture, List.all_map, List.all_eq_true]
    intro i _
    by_cases hp : pixelMatches img targetColor tolerance i <;> simp [hp]
  · simpa [analyzeTexture] using
      mask_count_eq (List.range (img.width * img.height))
        (pixelMatches img targetColor tolerance)

/-- Helper: a `foldl min` is bounded by its initial accumulator. -/
theorem foldl_min_le_init (l : List Nat) (a : Nat) : l.foldl min a ≤ a := by
  induction l generalizing a with
  | nil => exact le_refl a
  | cons b t ih => exact (ih (min a b)).trans (min_le_left a b)

/-- Helper: a `foldl min` is bounded by every list element. -/
theorem foldl_min_le_of_mem (l : List Nat) (a x : Nat) (hx : x ∈ l) :
    l.foldl min a ≤ x := by
  induction l generalizing a with
  | nil => cases hx
  | cons b t ih =>
    rcases List.mem_cons.mp hx with h | h
    · subst h
      exact (foldl_min_le_init t (min a x)).trans (min_le_right a x)
    · exact ih (min a b) h

/-- Helper: a `foldl min` over a list containing 0 is 0. -/
theorem foldl_min_eq_zero (l : List Nat) (a : Nat) (h : (0 : Nat) ∈ l) :
    l.foldl min a = 0 :=
  Nat.le_zero.mp (foldl_min_le_of_mem l a 0 h)

/-- Helper: a `foldl max 0` over an all-zero list is 0. -/
theorem foldl_max_zero (l : List Nat) (h : ∀ x ∈ l, x = 0) : l.foldl max 0 = 0 := by
  induction l with
  | nil => rfl
  | cons b t ih =>
    have hb : b = 0 := h b (List.mem_cons_self _ _)
    have ht := ih (fun x hx => h x (List.mem_cons_of_mem _ hx))
    simpa [hb] using ht

/-- Helper: any defaulted read of an all-zero list is 0. -/
theorem getD_zero_of_all_zero (l : List Nat) (k : Nat) (h : ∀ x ∈ l, x = 0) :
    l.getD k 0 = 0 := by
  rw [List.getD_eq_getElem?_getD]
  cases h' : l[k]? with
  | none => rfl
  | some v => simp [h v (List.getElem?_mem h')]

/-- Helper: a `flatMap` producing chunks of four entries has length
`4 * length`. -/
theorem flatMap_length_four {α : Type} (l : List α) (f : α → List Nat)
    (h : ∀ a ∈ l, (f a).length = 4) : (l.flatMap f).length = 4 * l.length := by
  induction l with
  | nil => rfl
  | cons b t ih =>
    have hb : (f b).length = 4 := h b (List.mem_cons_self _ _)
    have ht := ih (fun a ha => h a (List.mem_cons_of_mem _ ha))
    simp only [List.flatMap_cons, List.length_append, hb, ht, List.length_cons]
    omega

/-- Helper: the clamped index `max(0, min(n-1, i))` is below `n` whenever the
image dimension `n` is positive. -/
theorem clampIdx_lt (n : Nat) (i : ℤ) (hn : 0 < n) : clampIdx n i < n := by
  simp only [clampIdx, Int.max_def, Int.min_def]
  split <;> split <;> omega

/-- Helper: clamping an in-range coordinate is the identity. -/
theorem clampIdx_coe (n x : Nat) (hx : x < n) : clampIdx n (x : ℤ) = x := by
  simp only [clampIdx, Int.max_def, Int.min_def]
  split <;> split <;> omega


/-- Helper: `flatMap` respects pointwise equality of the chunk function. -/
theorem flatMap_congr {α β : Type} (l : List α) (f g : α → List β)
    (h : ∀ a ∈ l, f a = g a) : l.flatMap f = l.flatMap g := by
  induction l with
  | nil => rfl
  | cons b t ih =>
    simp only [List.flatMap_cons, h b (List.mem_cons_self _ _),
      ih (fun a ha => h a (List.mem_cons_of_mem _ ha))]

/-- Helper: reading entry `4*k + r` of a buffer flat-mapped in four-entry
chunks over `range n` lands in the `r`-th slot of the `k`-th chunk. -/
theorem range_chunk4_getD (f0 f1 f2 f3 : Nat → Nat) (r : Nat) (hr : r < 4) :
    ∀ n k : Nat, k < n →
      ((List.range n).flatMap (fun j => [f0 j, f1 j, f2 j, f3 j])).getD (4 * k + r) 0 =
        [f0 k, f1 k, f2 k, f3 k].getD r 0 := by
  intro n
  induction n with
  | zero => intro k hk; exact absurd hk (Nat.not_lt_zero k)
  | succ m ih =>
    intro k hk
    rw [List.range_succ, List.flatMap_append]
    have hlen : ((List.range m).flatMap (fun j => [f0 j, f1 j, f2 j, f3 j])).length = 4 * m := by
      rw [flatMap_length_four]
      · rw [List.length_range]
      · intro a ha
        rfl
    by_cases hkm : k < m
    · rw [List.getD_eq_getElem?_getD,
        List.getElem?_append_left (by rw [hlen]; omega),
        ← List.getD_eq_getElem?_getD]
      exact ih k hkm
    · have hkm' : m = k := by omega
      subst hkm'
      rw [List.getD_eq_getElem?_getD,
        List.getElem?_append_right (by rw [hlen]; omega), hlen,
        show 4 * m + r - 4 * m = r by omega]
      simp only [List.flatMap_cons, List.flatMap_nil, List.append_nil]
      rw [← List.getD_eq_getElem?_getD]

/-- Helper: the row-major index of an in-range pixel is in range. -/
theorem pixel_index_lt (w h x y : Nat) (hx : x < w) (hy : y < h) :
    y * w + x < w * h := by
  have h1 : y * w + x < (y + 1) * w := by
    rw [Nat.succ_mul]
    exact Nat.add_lt_add_left hx _
  exact lt_of_lt_of_le h1 (le_trans (Nat.mul_le_mul_right w hy) (le_of_eq (Nat.mul_comm h w)))

/-- A concrete 3×3 image that is zero except for an opaque red speck at the
center pixel `(1, 1)` (R = 200, A = 255). -/
def opaqueSpeckImage : ImageData :=
  ⟨3, 3, [0, 0, 0, 0, 0, 0, 0, 0, 0, 0, 0, 0,
          0, 0, 0, 0, 200, 0, 0, 255, 0, 0, 0, 0,
          0, 0, 0, 0, 0, 0, 0, 0, 0, 0, 0, 0]⟩

/-- Counterexample for C9: the concrete 3×3 image with a single isolated
opaque speck (one pixel with nonzero channel values, every other pixel and the
whole 3×3 neighborhood zero) does NOT open to the all-zero image: `erosion`
and `dilation` pass the alpha channel through unchanged, so the speck's alpha
byte survives morphological opening with kernel size 3. -/
theorem opening_keeps_opaque_speck_alpha_cx :
    (chanAt opaqueSpeckImage 1 1 0 ≠ 0 ∧
      (∀ x < 3, ∀ y < 3, ∀ c < 4, ¬(x = 1 ∧ y = 1) →
        chanAt opaqueSpeckImage x y c = 0) ∧
      (∀ d ∈ offsets 1, d ≠ ((0 : ℤ), (0 : ℤ)) →
        chanAt opaqueSpeckImage (clampIdx 3 ((1 : ℤ) + d.2))
          (clampIdx 3 ((1 : ℤ) + d.1)) 0 = 0 ∧
        chanAt opaqueSpeckImage (clampIdx 3 ((1 : ℤ) + d.2))
          (clampIdx 3 ((1 : ℤ) + d.1)) 3 = 0)) ∧
    morphologicalOpening opaqueSpeckImage 3 ≠
      { width := 3, height := 3, data := List.replicate 36 0 } :=
  ⟨⟨by decide, by decide, by decide⟩, by decide⟩

/-- C9 (amended): on an image that is zero everywhere except for a single
speck pixel `(x0, y0)` with some nonzero color channel, whose entire clamped
3×3 neighborhood reads zero (no kernel offset clamps back onto the speck),
morphological opening with kernel size 3 removes the speck from the color
channels — every R, G and B entry of the result is zero — while the alpha
channel passes through unchanged; the result is the all-zero image exactly
when the speck's alpha is zero. -/
theorem opening_zeroes_speck_color_channels (img : ImageData) (x0 y0 : Nat)
    (hx0 : x0 < img.width) (hy0 : y0 < img.height)
    (hnz : chanAt img x0 y0 0 ≠ 0 ∨ chanAt img x0 y0 1 ≠ 0 ∨ chanAt img x0 y0 2 ≠ 0)
    (hzero : ∀ x < img.width, ∀ y < img.height, ∀ c < 4,
      ¬(x = x0 ∧ y = y0) → chanAt img x y c = 0)
    (hiso : ∀ d ∈ offsets 1, d ≠ ((0 : ℤ), (0 : ℤ)) →
      ¬(clampIdx img.width ((x0 : ℤ) + d.2) = x0 ∧
        clampIdx img.height ((y0 : ℤ) + d.1) = y0)) :
    morphologicalOpening img 3 =
      { width := img.width, height := img.height
        data := (List.range (img.width * img.height)).flatMap (fun i =>
          [0, 0, 0, chanAt img (i % img.width) (i / img.width) 3]) } := by
  have hw : 0 < img.width := lt_of_le_of_lt (Nat.zero_le x0) hx0
  have hh : 0 < img.height := lt_of_le_of_lt (Nat.zero_le y0) hy0
  have hrad : (3 : Nat) / 2 = 1 := rfl
  have hEw : (erosion img 3).width = img.width := rfl
  have hEh : (erosion img 3).height = img.height := rfl
  -- erosion zeroes every channel minimum (the speck has a zero neighbor,
  -- every other pixel is itself zero) and passes alpha through
  have hch : ∀ i < img.width * img.height, ∀ c < 4,
      erodePixel img (i % img.width) (i / img.width) 1 c = 0 := by
    intro i hi c hc
    have hx : i % img.width < img.width := Nat.mod_lt _ hw
    have hy : i / img.width < img.height :=
      (Nat.div_lt_iff_lt_mul hw).mpr (by rw [mul_comm img.height img.width]; exact hi)
    apply foldl_min_eq_zero
    by_cases hxy : i % img.width = x0 ∧ i / img.width = y0
    · refine List.mem_map.mpr ⟨((0 : ℤ), (1 : ℤ)), by decide, ?_⟩
      have hcl := hiso ((0 : ℤ), (1 : ℤ)) (by decide) (by decide)
      rw [hxy.1, hxy.2]
      exact hzero _ (clampIdx_lt _ _ hw) _ (clampIdx_lt _ _ hh) c hc hcl
    · refine List.mem_map.mpr ⟨((0 : ℤ), (0 : ℤ)), by decide, ?_⟩
      show chanAt img (clampIdx img.width ((i % img.width : Nat) + (0 : ℤ)))
        (clampIdx img.height ((i / img.width : Nat) + (0 : ℤ))) c = 0
      rw [add_zero, add_zero, clampIdx_coe _ _ hx, clampIdx_coe _ _ hy]
      exact hzero _ hx _ hy c hc hxy
  have hEdata : (erosion img 3).data =
      (List.range (img.width * img.height)).flatMap (fun i =>
        [0, 0, 0, chanAt img (i % img.width) (i / img.width) 3]) := by
    simp only [erosion, hrad]
    refine flatMap_congr _ _ _ (fun i hi => ?_)
    rw [List.mem_range] at hi
    rw [hch i hi 0 (by omega), hch i hi 1 (by omega), hch i hi 2 (by omega)]
  -- a channel read from the eroded image: zero on R/G/B, original alpha
  have hread : ∀ x < img.width, ∀ y < img.height, ∀ c < 4,
      chanAt (erosion img 3) x y c = [0, 0, 0, chanAt img x y 3].getD c 0 := by
    intro x hx y hy c hc
    show (erosion img 3).data.getD ((y * img.width + x) * 4 + c) 0 = _
    rw [hEdata, show (y * img.width + x) * 4 + c = 4 * (y * img.width + x) + c by ring,
      range_chunk4_getD _ _ _ _ c hc _ _ (pixel_index_lt _ _ _ _ hx hy)]
    have hmod : (y * img.width + x) % img.width = x := by
      rw [mul_comm y img.width, Nat.mul_add_mod, Nat.mod_eq_of_lt hx]
    have hdiv : (y * img.width + x) / img.width = y := by
      rw [mul_comm y img.width, Nat.mul_add_div hw, Nat.div_eq_of_lt hx]
      omega
    rw [hmod, hdiv]

  -- dilation keeps the color channels at zero and passes alpha through again
  have hDdata : (dilation (erosion img 3) 3).data =
      (List.range (img.width * img.height)).flatMap (fun i =>
        [0, 0, 0, chanAt img (i % img.width) (i / img.width) 3]) := by
    simp only [dilation, hrad, hEw, hEh]
    refine flatMap_congr _ _ _ (fun i hi => ?_)
    rw [List.mem_range] at hi
    have hx : i % img.width < img.width := Nat.mod_lt _ hw
    have hy : i / img.width < img.height :=
      (Nat.div_lt_iff_lt_mul hw).mpr (by rw [mul_comm img.height img.width]; exact hi)
    have hdp : ∀ c, c < 3 →
        dilatePixel (erosion img 3) (i % img.width) (i / img.width) 1 c = 0 := by
      intro c hc
      apply foldl_max_zero
      intro u hu
      rw [List.mem_map] at hu
      obtain ⟨d, -, hd⟩ := hu
      rw [← hd]
      show chanAt (erosion img 3) (clampIdx img.width _) (clampIdx img.height _) c = 0
      rw [hread _ (clampIdx_lt _ _ hw) _ (clampIdx_lt _ _ hh) c (by omega)]
      interval_cases c <;> rfl
    rw [hdp 0 (by omega), hdp 1 (by omega), hdp 2 (by omega),
      hread _ hx _ hy 3 (by omega)]
    rfl
  show dilation (erosion img 3) 3 = _
  rw [show dilation (erosion img 3) 3 =
    ImageData.mk img.width img.height ((dilation (erosion img 3) 3).data) from rfl, hDdata]

/-- Witness for the amended C9: the concrete opaque-speck image satisfies
every hypothesis, and its morphological opening is the image with zero color
channels and the original alpha channel. -/
theorem opening_zeroes_speck_color_channels_witness :
    ((1 : Nat) < opaqueSpeckImage.width ∧ (1 : Nat) < opaqueSpeckImage.height ∧
      (chanAt opaqueSpeckImage 1 1 0 ≠ 0 ∨ chanAt opaqueSpeckImage 1 1 1 ≠ 0 ∨
        chanAt opaqueSpeckImage 1 1 2 ≠ 0) ∧
      (∀ x < opaqueSpeckImage.width, ∀ y < opaqueSpeckImage.height, ∀ c < 4,
        ¬(x = 1 ∧ y = 1) → chanAt opaqueSpeckImage x y c = 0) ∧
      (∀ d ∈ offsets 1, d ≠ ((0 : ℤ), (0 : ℤ)) →
        ¬(clampIdx opaqueSpeckImage.width (((1 : Nat) : ℤ) + d.2) = 1 ∧
          clampIdx opaqueSpeckImage.height (((1 : Nat) : ℤ) + d.1) = 1))) ∧
    morphologicalOpening opaqueSpeckImage 3 =
      { width := opaqueSpeckImage.width, height := opaqueSpeckImage.height
        data := (List.range (opaqueSpeckImage.width * opaqueSpeckImage.height)).flatMap
          (fun i => [0, 0, 0,
            chanAt opaqueSpeckImage (i % opaqueSpeckImage.width)
              (i / opaqueSpeckImage.width) 3]) } :=
  ⟨⟨by decide, by decide, by decide, by decide, by decide⟩,
   opening_zeroes_speck_color_channels opaqueSpeckImage 1 1 (by decide) (by decide)
     (by decide) (by decide) (by decide)⟩
